import Mathlib

/-!
Verification of `tiny-sftp` (`src/sftp.py`) against its specification.

The script is embedded shallowly: the outside world (file system, network
probe, SSH connect, per-attempt fetch outcomes) is an oracle record `Env`,
and `sftp_transfer` is a pure function producing the ordered list of
observable events (log lines, the connect call, the session close) together
with a flag recording whether an uncaught exception propagated out of the
function.  Each Lean definition mirrors one region of the Python source.
-/

namespace TinySftp

/-- The `MAX_RETRIES` constant of `sftp.py` (line 10). -/
def MAX_RETRIES : Nat := 3

/-- What the private-key file looks like when `validate_private_key` reads it:
missing (`open` raises `FileNotFoundError`), unreadable (`open` raises an
error outside the except clause, e.g. `PermissionError`), present but not a
well-formed RSA key (`paramiko.RSAKey` raises `SSHException`), or a
well-formed RSA key. -/
inductive KeyFileContent where
  | missing
  | unreadable
  | invalidKey
  | validRSA
deriving DecidableEq, Repr

/-- Function `validate_private_key` (sftp.py lines 15-30): `try` opening the file and
parsing it as an RSA key; `except (FileNotFoundError, SSHException)` returns
`False`; any other exception propagates (modelled as `Except.error`). -/
def validate_private_key : KeyFileContent → Except Unit Bool
  | .missing => .ok false
  | .unreadable => .error ()
  | .invalidKey => .ok false
  | .validRSA => .ok true

/-- Outcome of the `socket.create_connection((host, port), timeout=10)`
probe inside `is_host_reachable`. -/
inductive ProbeOutcome where
  | connected
  | refused
  | nameResolutionFailure
  | timedOut
  | otherOSError
deriving DecidableEq, Repr

/-- Function `is_host_reachable` (sftp.py lines 32-47): returns `True` when the probe
connects; `except (ConnectionRefusedError, socket.gaierror)` returns `False`;
any other probe failure (a `socket.timeout` from the 10-second bound, other
OS errors) is not in the except clause and propagates to the caller
(modelled as `Except.error`). -/
def is_host_reachable : ProbeOutcome → Except Unit Bool
  | .connected => .ok true
  | .refused => .ok false
  | .nameResolutionFailure => .ok false
  | .timedOut => .error ()
  | .otherOSError => .error ()

/-- One parsed manifest row: `row['Source']`, `row['Destination']`. -/
structure Row where
  source : String
  destination : String
deriving DecidableEq, Repr

/-- Exception class raised by one `sftp.get` attempt, as classified by the
two except clauses of the retry loop (lines 108-111). -/
inductive FetchErr where
  | fileNotFound
  | permissionErr
  | ioErr
  | otherErr (msg : String)
deriving DecidableEq, Repr

/-- Outcome of one `sftp.get(source, destination)` call: success, a caught
exception, or a `BaseException` (e.g. `KeyboardInterrupt`) that neither
except clause catches and which aborts the batch. -/
inductive FetchOutcome where
  | ok
  | err (e : FetchErr)
  | interrupt
deriving DecidableEq, Repr

/-- The paramiko key object, reduced to the one field the script touches:
`private_key.key_algorithm`, set at line 85 when a preferred algorithm is
configured. -/
structure PKey where
  keyAlgorithm : Option String
deriving DecidableEq, Repr

/-- Outcome of `ssh.connect(...)` (lines 87-94): success, the
`AuthenticationException` clause, the `SSHException` clause, or some other
exception that propagates uncaught. -/
inductive ConnectResult where
  | ok
  | authFail
  | sshErr (msg : String)
  | otherRaise
deriving DecidableEq, Repr

/-- Observable events of one run, in program order: the two preflight-check
calls, the log lines the script emits, the `ssh.connect` call (carrying the
key object it is given), the successful opening of the manifest file, each
`sftp.get` call, and `ssh.close()`. -/
inductive Event where
  | checkedKey
  | checkedHost
  | errInvalidKey
  | errUnreachable
  | infoKeyAlgo (algo : String)
  | connectAttempt (key : PKey)
  | errAuth
  | errSSH (msg : String)
  | readManifest
  | attemptFetch (source destination : String) (attempt : Nat)
  | infoTransferred (source destination : String)
  | errTransfer (source destination : String) (e : FetchErr)
  | infoCompleted
  | closeSSH
deriving DecidableEq, Repr

/-- The oracle record: everything the script observes from the outside
world.  `fetch i k` is the outcome of attempt `k` on manifest row `i`; a
manifest row of `none` is a row missing the `Source`/`Destination` column,
whose dictionary lookup raises an uncaught `KeyError`. -/
structure Env where
  keyContent : KeyFileContent
  probe : ProbeOutcome
  preferredKeyAlgorithm : Option String
  connect : ConnectResult
  sftpOpenOk : Bool
  manifest : Except Unit (List (Option Row))
  fetch : Nat → Nat → FetchOutcome

/-- Python truthiness of the `preferred_key_algorithm` value (line 83):
`None` and the empty string are falsy. -/
def truthy : Option String → Bool
  | none => false
  | some s => !s.isEmpty

/-- The inner retry loop `for retry_count in range(MAX_RETRIES)` (lines
103-111) for one row, started at attempt `a` with `fuel` iterations left.
Returns the events of the loop and whether an uncaught exception
(interrupt) aborted it. -/
def runItem (fetch : Nat → FetchOutcome) (r : Row) : Nat → Nat → List Event × Bool
  | _, 0 => ([], false)
  | a, fuel + 1 =>
    match fetch a with
    | .ok =>
      ([.attemptFetch r.source r.destination a,
        .infoTransferred r.source r.destination], false)
    | .err e =>
      let rest := runItem fetch r (a + 1) fuel
      (.attemptFetch r.source r.destination a ::
        .errTransfer r.source r.destination e :: rest.1, rest.2)
    | .interrupt => ([.attemptFetch r.source r.destination a], true)

/-- The `for row in csv_reader` loop (lines 100-111), processing the rows
starting at row index `i`.  A `none` row raises `KeyError` on the column
lookup, aborting the loop; an interrupted item aborts the loop. -/
def runRows (fetch : Nat → Nat → FetchOutcome) : List (Option Row) → Nat → List Event × Bool
  | [], _ => ([], false)
  | none :: _, _ => ([], true)
  | some r :: rest, i =>
    let itemRes := runItem (fetch i) r 0 MAX_RETRIES
    if itemRes.2 then (itemRes.1, true)
    else
      let restRes := runRows fetch rest (i + 1)
      (itemRes.1 ++ restRes.1, restRes.2)

/-- Lines 82-85: `if preferred_key_algorithm:` log it and set
`private_key.key_algorithm`; otherwise leave the key unmodified. -/
def keyAlgoStep : Option String → List Event × PKey
  | some s => if s.isEmpty then ([], ⟨none⟩) else ([.infoKeyAlgo s], ⟨some s⟩)
  | none => ([], ⟨none⟩)

/-- The `try ... finally: ssh.close()` region (lines 96-114): open the sftp
sub-channel, open and iterate the manifest, and log the terminal
"completed successfully" message when the loop finishes without an uncaught
exception; `ssh.close()` runs on every exit path of this region. -/
def transferPhase (env : Env) : List Event × Bool :=
  if env.sftpOpenOk then
    match env.manifest with
    | .error _ => ([Event.closeSSH], true)
    | .ok rows =>
      let res := runRows env.fetch rows 0
      if res.2 then (Event.readManifest :: res.1 ++ [Event.closeSSH], true)
      else
        (Event.readManifest :: res.1 ++ [Event.infoCompleted, Event.closeSSH], false)
  else ([Event.closeSSH], true)

/-- Lines 77-114 after the preflight checks: build the key, apply the
preferred algorithm if configured, `ssh.connect` with its two except
clauses, then the transfer region. -/
def connectPhase (env : Env) : List Event × Bool :=
  let ks := keyAlgoStep env.preferredKeyAlgorithm
  let evs := ks.1 ++ [Event.connectAttempt ks.2]
  match env.connect with
  | .authFail => (evs ++ [Event.errAuth], false)
  | .sshErr m => (evs ++ [Event.errSSH m], false)
  | .otherRaise => (evs, true)
  | .ok =>
    let t := transferPhase env
    (evs ++ t.1, t.2)

/-- Function `sftp_transfer` (sftp.py lines 58-114): validate the private key first
(line 69), then check reachability (line 73), then connect and transfer.
Returns the event trace and whether an uncaught exception propagated. -/
def sftp_transfer (env : Env) : List Event × Bool :=
  match validate_private_key env.keyContent with
  | .error _ => ([Event.checkedKey], true)
  | .ok false => ([Event.checkedKey, Event.errInvalidKey], false)
  | .ok true =>
    match is_host_reachable env.probe with
    | .error _ => ([Event.checkedKey, Event.checkedHost], true)
    | .ok false => ([Event.checkedKey, Event.checkedHost, Event.errUnreachable], false)
    | .ok true =>
      let c := connectPhase env
      (Event.checkedKey :: Event.checkedHost :: c.1, c.2)

/-- A session was opened during the run iff both preflight checks passed and
`ssh.connect` succeeded. -/
def sessionOpened (env : Env) : Bool :=
  (match validate_private_key env.keyContent with | .ok true => true | _ => false) &&
  (match is_host_reachable env.probe with | .ok true => true | _ => false) &&
  (match env.connect with | .ok => true | _ => false)

/-- Events emitted by the retry loop body. -/
def isItemEvent : Event → Bool
  | .attemptFetch _ _ _ => true
  | .infoTransferred _ _ => true
  | .errTransfer _ _ _ => true
  | _ => false

/-- Events that are `sftp.get` calls. -/
def isAttemptEv : Event → Bool
  | .attemptFetch _ _ _ => true
  | _ => false

/-- Number of `sftp.get` calls in a trace. -/
def numAttempts (ev : List Event) : Nat := ev.countP (fun e => isAttemptEv e)

/-! ### Helper lemmas about the retry loop and the row loop -/

lemma runItem_item_events (fetch : Nat → FetchOutcome) (r : Row) :
    ∀ fuel a e, e ∈ (runItem fetch r a fuel).1 → isItemEvent e = true := by
  intro fuel
  induction fuel with
  | zero => intro a e h; simp [runItem] at h
  | succ n ih =>
    intro a e h
    unfold runItem at h
    cases hf : fetch a <;> rw [hf] at h <;> simp at h
    · rcases h with h | h <;> subst h <;> rfl
    · rcases h with h | h | h
      · subst h; rfl
      · subst h; rfl
      · exact ih (a + 1) e h
    · subst h; rfl

lemma runRows_item_events (fetch : Nat → Nat → FetchOutcome) :
    ∀ rows i e, e ∈ (runRows fetch rows i).1 → isItemEvent e = true := by
  intro rows
  induction rows with
  | nil => intro i e h; simp [runRows] at h
  | cons hd tl ih =>
    intro i e h
    cases hd with
    | none => simp [runRows] at h
    | some r =>
      unfold runRows at h
      by_cases hab : (runItem (fetch i) r 0 MAX_RETRIES).2 = true
      · simp [hab] at h
        exact runItem_item_events (fetch i) r MAX_RETRIES 0 e h
      · simp [hab] at h
        rcases h with h | h
        · exact runItem_item_events (fetch i) r MAX_RETRIES 0 e h
        · exact ih (i + 1) e h

lemma runRows_count_eq_zero (fetch : Nat → Nat → FetchOutcome) (rows : List (Option Row))
    (i : Nat) (e : Event) (he : isItemEvent e = false) :
    (runRows fetch rows i).1.count e = 0 := by
  rw [List.count_eq_zero]
  intro hmem
  have := runRows_item_events fetch rows i e hmem
  rw [he] at this
  exact Bool.false_ne_true this

lemma isAttemptEv_attemptFetch (s d : String) (n : Nat) :
    isAttemptEv (Event.attemptFetch s d n) = true := rfl

lemma isAttemptEv_errTransfer (s d : String) (e : FetchErr) :
    isAttemptEv (Event.errTransfer s d e) = false := rfl

lemma runItem_succ_ok (fetch : Nat → FetchOutcome) (r : Row) (a n : Nat)
    (h : fetch a = FetchOutcome.ok) :
    runItem fetch r a (n + 1) =
      ([Event.attemptFetch r.source r.destination a,
        Event.infoTransferred r.source r.destination], false) := by
  simp only [runItem, h]

lemma runItem_succ_err (fetch : Nat → FetchOutcome) (r : Row) (a n : Nat)
    (e : FetchErr) (h : fetch a = FetchOutcome.err e) :
    runItem fetch r a (n + 1) =
      (Event.attemptFetch r.source r.destination a ::
        Event.errTransfer r.source r.destination e :: (runItem fetch r (a + 1) n).1,
       (runItem fetch r (a + 1) n).2) := by
  simp only [runItem, h]

lemma runItem_succ_interrupt (fetch : Nat → FetchOutcome) (r : Row) (a n : Nat)
    (h : fetch a = FetchOutcome.interrupt) :
    runItem fetch r a (n + 1) =
      ([Event.attemptFetch r.source r.destination a], true) := by
  simp only [runItem, h]

/-- If every attempt on this item fails with a caught exception, the loop
runs all its iterations, never succeeds, does not abort, and the last event
is the error log of the final attempt. -/
lemma runItem_all_fail (fetch : Nat → FetchOutcome) (r : Row) :
    ∀ fuel a, (∀ k, k < fuel → ∃ e, fetch (a + k) = FetchOutcome.err e) →
      numAttempts (runItem fetch r a fuel).1 = fuel ∧
      (runItem fetch r a fuel).2 = false ∧
      Event.infoTransferred r.source r.destination ∉ (runItem fetch r a fuel).1 ∧
      ∀ e, fuel ≠ 0 → fetch (a + (fuel - 1)) = FetchOutcome.err e →
        (runItem fetch r a fuel).1.getLast? =
          some (Event.errTransfer r.source r.destination e) := by
  intro fuel
  induction fuel with
  | zero =>
    intro a _
    refine ⟨rfl, rfl, by simp [runItem], ?_⟩
    intro e h; exact absurd rfl h
  | succ n ih =>
    intro a h
    obtain ⟨e0, he0⟩ := h 0 (Nat.succ_pos n)
    rw [Nat.add_zero] at he0
    have hrest : ∀ k, k < n → ∃ e, fetch (a + 1 + k) = FetchOutcome.err e := by
      intro k hk
      have := h (k + 1) (Nat.succ_lt_succ hk)
      rwa [show a + (k + 1) = a + 1 + k by omega] at this
    obtain ⟨ihn, ihab, ihmem, ihlast⟩ := ih (a + 1) hrest
    rw [runItem_succ_err fetch r a n e0 he0]
    refine ⟨?_, ihab, ?_, ?_⟩
    · simp only [numAttempts, List.countP_cons, isAttemptEv_attemptFetch,
        isAttemptEv_errTransfer] at ihn ⊢
      simp
      omega
    · simp only [List.mem_cons]
      push_neg
      exact ⟨by simp, by simp, fun hmem => ihmem hmem⟩
    · intro e _ hlast
      cases n with
      | zero =>
        simp only [Nat.add_sub_cancel, Nat.add_zero] at hlast
        rw [he0] at hlast
        injection hlast with h'
        subst h'
        rfl
      | succ m =>
        have hlast' : fetch (a + 1 + (m + 1 - 1)) = FetchOutcome.err e := by
          rwa [show a + 1 + (m + 1 - 1) = a + (m + 1 + 1 - 1) by omega]
        have hl := ihlast e (Nat.succ_ne_zero m) hlast'
        have hne : (runItem fetch r (a + 1) (m + 1)).1 ≠ [] := by
          intro hnil
          rw [hnil] at hl
          simp at hl
        rcases List.exists_cons_of_ne_nil hne with ⟨x, xs, hxs⟩
        rw [hxs] at hl ⊢
        rw [List.getLast?_cons_cons, List.getLast?_cons_cons]
        exact hl

/-- If attempt `k` is the first success, the loop makes exactly `k + 1`
fetch calls, ends with the success log, and does not abort. -/
lemma runItem_first_success (fetch : Nat → FetchOutcome) (r : Row) :
    ∀ k fuel a, k < fuel → fetch (a + k) = FetchOutcome.ok →
      (∀ j, j < k → ∃ e, fetch (a + j) = FetchOutcome.err e) →
      numAttempts (runItem fetch r a fuel).1 = k + 1 ∧
      (runItem fetch r a fuel).2 = false ∧
      (runItem fetch r a fuel).1.getLast? =
        some (Event.infoTransferred r.source r.destination) := by
  intro k
  induction k with
  | zero =>
    intro fuel a hk hok _
    cases fuel with
    | zero => omega
    | succ n =>
      rw [Nat.add_zero] at hok
      rw [runItem_succ_ok fetch r a n hok]
      exact ⟨by simp [numAttempts, isAttemptEv], rfl, rfl⟩
  | succ m ih =>
    intro fuel a hk hok hmin
    cases fuel with
    | zero => omega
    | succ n =>
      obtain ⟨e0, he0⟩ := hmin 0 (Nat.succ_pos m)
      rw [Nat.add_zero] at he0
      have hok' : fetch (a + 1 + m) = FetchOutcome.ok := by
        rwa [show a + 1 + m = a + (m + 1) by omega]
      have hmin' : ∀ j, j < m → ∃ e, fetch (a + 1 + j) = FetchOutcome.err e := by
        intro j hj
        have := hmin (j + 1) (Nat.succ_lt_succ hj)
        rwa [show a + (j + 1) = a + 1 + j by omega] at this
      obtain ⟨ihn, ihab, ihlast⟩ := ih n (a + 1) (by omega) hok' hmin'
      rw [runItem_succ_err fetch r a n e0 he0]
      refine ⟨?_, ihab, ?_⟩
      · simp only [numAttempts, List.countP_cons, isAttemptEv_attemptFetch,
          isAttemptEv_errTransfer] at ihn ⊢
        simp
        omega
      · have hne : (runItem fetch r (a + 1) n).1 ≠ [] := by
          intro hnil
          rw [hnil] at ihlast
          simp at ihlast
        rcases List.exists_cons_of_ne_nil hne with ⟨x, xs, hxs⟩
        rw [hxs] at ihlast ⊢
        rw [List.getLast?_cons_cons, List.getLast?_cons_cons]
        exact ihlast

/-- If no attempt is an interrupt, the retry loop never aborts the batch. -/
lemma runItem_no_interrupt (fetch : Nat → FetchOutcome) (r : Row)
    (hni : ∀ k, fetch k ≠ FetchOutcome.interrupt) :
    ∀ fuel a, (runItem fetch r a fuel).2 = false := by
  intro fuel
  induction fuel with
  | zero => intro a; rfl
  | succ n ih =>
    intro a
    unfold runItem
    cases hf : fetch a with
    | ok => rfl
    | err e => exact ih (a + 1)
    | interrupt => exact absurd hf (hni a)

lemma runRows_cons_some (fetch : Nat → Nat → FetchOutcome) (rows : List (Option Row))
    (i : Nat) (r : Row) (hab : (runItem (fetch i) r 0 MAX_RETRIES).2 = false) :
    runRows fetch (some r :: rows) i =
      ((runItem (fetch i) r 0 MAX_RETRIES).1 ++ (runRows fetch rows (i + 1)).1,
       (runRows fetch rows (i + 1)).2) := by
  simp only [runRows, hab]
  simp

/-- With no interrupts, the row loop visits every row in order and the trace
is the concatenation of the per-row retry-loop traces. -/
lemma runRows_map_some (fetch : Nat → Nat → FetchOutcome)
    (hni : ∀ i k, fetch i k ≠ FetchOutcome.interrupt) :
    ∀ (rows : List Row) (i : Nat),
      runRows fetch (rows.map some) i =
        (((rows.enumFrom i).map
            (fun p => (runItem (fetch p.1) p.2 0 MAX_RETRIES).1)).flatten, false) := by
  intro rows
  induction rows with
  | nil => intro i; rfl
  | cons r rest ih =>
    intro i
    have hab := runItem_no_interrupt (fetch i) r (hni i) MAX_RETRIES 0
    rw [List.map_cons, runRows_cons_some fetch (rest.map some) i r hab, ih (i + 1),
      List.enumFrom_cons]
    simp

/-- The events produced by `keyAlgoStep` are only the algorithm log line. -/
lemma keyAlgoStep_events (pka : Option String) (e : Event) :
    e ∈ (keyAlgoStep pka).1 → ∃ s, e = Event.infoKeyAlgo s := by
  intro h
  cases pka with
  | none => simp [keyAlgoStep] at h
  | some s =>
    by_cases hs : s.isEmpty
    · simp [keyAlgoStep, hs] at h
    · simp [keyAlgoStep, hs] at h
      exact ⟨s, h⟩

lemma keyAlgoStep_count_eq_zero (pka : Option String) (e : Event)
    (he : ∀ s, e ≠ Event.infoKeyAlgo s) : (keyAlgoStep pka).1.count e = 0 := by
  rw [List.count_eq_zero]
  intro hmem
  obtain ⟨s, hs⟩ := keyAlgoStep_events pka e hmem
  exact he s hs

/-- The call `ssh.close()` is executed exactly once in the `try/finally` region,
whatever happens inside it. -/
lemma transferPhase_close_count (env : Env) :
    (transferPhase env).1.count Event.closeSSH = 1 := by
  unfold transferPhase
  by_cases hso : env.sftpOpenOk
  · simp only [hso, if_true]
    cases hm : env.manifest with
    | error u => simp
    | ok rows =>
      by_cases hab : (runRows env.fetch rows 0).2
      · simp only [hab, if_true]
        simp [List.count_cons, List.count_append,
          runRows_count_eq_zero env.fetch rows 0 Event.closeSSH rfl]
      · simp only [hab, if_false]
        simp [List.count_cons, List.count_append,
          runRows_count_eq_zero env.fetch rows 0 Event.closeSSH rfl]
  · simp [hso]

/-- The call `ssh.close()` runs exactly once when `ssh.connect` succeeds and never
when it fails. -/
lemma connectPhase_close_count (env : Env) :
    (connectPhase env).1.count Event.closeSSH =
      if env.connect = ConnectResult.ok then 1 else 0 := by
  unfold connectPhase
  have hka := keyAlgoStep_count_eq_zero env.preferredKeyAlgorithm Event.closeSSH
    (by intro s h; cases h)
  cases hc : env.connect with
  | ok => simp [List.count_append, hka, transferPhase_close_count env]
  | authFail => simp [List.count_append, hka]
  | sshErr m => simp [List.count_append, hka]
  | otherRaise => simp [List.count_append, hka]

lemma err_of_not_ok {fetch : Nat → FetchOutcome} {k : Nat}
    (hni : fetch k ≠ FetchOutcome.interrupt) (hok : fetch k ≠ FetchOutcome.ok) :
    ∃ e, fetch k = FetchOutcome.err e := by
  cases hf : fetch k with
  | ok => exact absurd hf hok
  | err e => exact ⟨e, rfl⟩
  | interrupt => exact absurd hf hni

/-- With no interrupts, one retry loop either succeeds at the first
successful attempt (making exactly that many fetch calls) or exhausts all
`MAX_RETRIES` attempts without a success log. -/
lemma runItem_classify (fetch : Nat → FetchOutcome) (r : Row)
    (hni : ∀ k, fetch k ≠ FetchOutcome.interrupt) :
    (∃ k, k < MAX_RETRIES ∧ fetch k = FetchOutcome.ok ∧
       (∀ j, j < k → fetch j ≠ FetchOutcome.ok) ∧
       numAttempts (runItem fetch r 0 MAX_RETRIES).1 = k + 1 ∧
       (runItem fetch r 0 MAX_RETRIES).1.getLast? =
         some (Event.infoTransferred r.source r.destination)) ∨
    ((∀ k, k < MAX_RETRIES → fetch k ≠ FetchOutcome.ok) ∧
       numAttempts (runItem fetch r 0 MAX_RETRIES).1 = MAX_RETRIES ∧
       Event.infoTransferred r.source r.destination ∉ (runItem fetch r 0 MAX_RETRIES).1) := by
  by_cases h0 : fetch 0 = FetchOutcome.ok
  · left
    obtain ⟨hn, _, hlast⟩ := runItem_first_success fetch r 0 MAX_RETRIES 0
      (by decide) (by simpa using h0) (by omega)
    exact ⟨0, by decide, h0, by omega, hn, hlast⟩
  · by_cases h1 : fetch 1 = FetchOutcome.ok
    · left
      have hmin : ∀ j, j < 1 → ∃ e, fetch (0 + j) = FetchOutcome.err e := by
        intro j hj
        interval_cases j
        exact err_of_not_ok (hni 0) h0
      obtain ⟨hn, _, hlast⟩ := runItem_first_success fetch r 1 MAX_RETRIES 0
        (by decide) (by simpa using h1) hmin
      refine ⟨1, by decide, h1, ?_, hn, hlast⟩
      intro j hj
      interval_cases j
      exact h0
    · by_cases h2 : fetch 2 = FetchOutcome.ok
      · left
        have hmin : ∀ j, j < 2 → ∃ e, fetch (0 + j) = FetchOutcome.err e := by
          intro j hj
          interval_cases j
          · exact err_of_not_ok (hni 0) h0
          · exact err_of_not_ok (hni 1) h1
        obtain ⟨hn, _, hlast⟩ := runItem_first_success fetch r 2 MAX_RETRIES 0
          (by decide) (by simpa using h2) hmin
        refine ⟨2, by decide, h2, ?_, hn, hlast⟩
        intro j hj
        interval_cases j
        · exact h0
        · exact h1
      · right
        have hfail : ∀ k, k < MAX_RETRIES → ∃ e, fetch (0 + k) = FetchOutcome.err e := by
          intro k hk
          have hk3 : k < 3 := hk
          interval_cases k
          · exact err_of_not_ok (hni 0) h0
          · exact err_of_not_ok (hni 1) h1
          · exact err_of_not_ok (hni 2) h2
        obtain ⟨hn, _, hmem, _⟩ := runItem_all_fail fetch r MAX_RETRIES 0 hfail
        refine ⟨?_, hn, hmem⟩
        intro k hk
        have hk3 : k < 3 := hk
        interval_cases k
        · exact h0
        · exact h1
        · exact h2

/-! ### Claim theorems -/

/-- Claim C1: an item whose fetch operation fails with a caught exception
on every attempt gets exactly `MAX_RETRIES` (= 3) fetch attempts, is never
logged as transferred, its last event is the error log carrying the last
observed error, and the row loop then continues with the subsequent
manifest items exactly as if this item had not been present — its failure
never aborts the batch.  (The loop body contains no sleep, so there is no
backoff between attempts.) -/
theorem failed_item_three_attempts_batch_continues
    (fetch : Nat → Nat → FetchOutcome) (r : Row) (rest : List (Option Row)) (i : Nat)
    (hfail : ∀ k, k < MAX_RETRIES → ∃ e, fetch i k = FetchOutcome.err e) :
    numAttempts (runItem (fetch i) r 0 MAX_RETRIES).1 = MAX_RETRIES ∧
    Event.infoTransferred r.source r.destination ∉ (runItem (fetch i) r 0 MAX_RETRIES).1 ∧
    (∀ e, fetch i (MAX_RETRIES - 1) = FetchOutcome.err e →
      (runItem (fetch i) r 0 MAX_RETRIES).1.getLast? =
        some (Event.errTransfer r.source r.destination e)) ∧
    runRows fetch (some r :: rest) i =
      ((runItem (fetch i) r 0 MAX_RETRIES).1 ++ (runRows fetch rest (i + 1)).1,
       (runRows fetch rest (i + 1)).2) := by
  have hfail' : ∀ k, k < MAX_RETRIES → ∃ e, fetch i (0 + k) = FetchOutcome.err e := by
    intro k hk
    simpa using hfail k hk
  obtain ⟨hn, hab, hmem, hlast⟩ := runItem_all_fail (fetch i) r MAX_RETRIES 0 hfail'
  refine ⟨hn, hmem, ?_, runRows_cons_some fetch rest i r hab⟩
  intro e he
  exact hlast e (by decide) (by simpa using he)

/-- A fetch oracle that fails with an I/O error on every attempt. -/
def fetchAlwaysFails : Nat → Nat → FetchOutcome := fun _ _ => FetchOutcome.err FetchErr.ioErr

/-- Witness for claim C1 at a concrete always-failing item. -/
theorem failed_item_three_attempts_batch_continues_witness :
    numAttempts (runItem (fetchAlwaysFails 0) ⟨"remote", "local"⟩ 0 MAX_RETRIES).1 =
      MAX_RETRIES :=
  (failed_item_three_attempts_batch_continues fetchAlwaysFails ⟨"remote", "local"⟩ [] 0
    (fun _ _ => ⟨FetchErr.ioErr, rfl⟩)).1

/-- Claim C2: in every run, the session's close routine (`ssh.close()` in
the `finally` block) is invoked exactly once when a session was opened, and
never otherwise — on every exit path: normal completion, zero/some/all
items failed, an interrupt mid-batch, a malformed manifest row, a failure
to open the sftp sub-channel, or an unreadable manifest. -/
theorem session_close_exactly_once (env : Env) :
    (sftp_transfer env).1.count Event.closeSSH =
      if sessionOpened env then 1 else 0 := by
  unfold sftp_transfer sessionOpened
  cases hv : validate_private_key env.keyContent with
  | error u => simp
  | ok b =>
    cases b with
    | false => simp
    | true =>
      cases hr : is_host_reachable env.probe with
      | error u => simp
      | ok b2 =>
        cases b2 with
        | false => simp
        | true =>
          have h1 : Event.closeSSH ≠ Event.checkedKey := by decide
          have h2 : Event.closeSSH ≠ Event.checkedHost := by decide
          simp only []
          rw [List.count_cons_of_ne h1, List.count_cons_of_ne h2,
            connectPhase_close_count env]
          cases hc : env.connect <;> simp

/-- Claim C8: processing a manifest of `N` well-formed rows with no
interrupt never aborts, visits every row in input order (the trace is the
concatenation of the per-row traces, one block per row), and resolves each
row exactly once: either the loop stops at the first successful attempt
(making exactly that many fetch calls and ending in the success log), or
all `MAX_RETRIES` attempts fail and the row is never logged as
transferred. -/
theorem executor_resolutions_in_order (fetch : Nat → Nat → FetchOutcome) (rows : List Row)
    (hni : ∀ i k, fetch i k ≠ FetchOutcome.interrupt) :
    (runRows fetch (rows.map some) 0).2 = false ∧
    (runRows fetch (rows.map some) 0).1 =
      ((rows.enum).map (fun p => (runItem (fetch p.1) p.2 0 MAX_RETRIES).1)).flatten ∧
    ∀ i r, rows[i]? = some r →
      ((∃ k, k < MAX_RETRIES ∧ fetch i k = FetchOutcome.ok ∧
          (∀ j, j < k → fetch i j ≠ FetchOutcome.ok) ∧
          numAttempts (runItem (fetch i) r 0 MAX_RETRIES).1 = k + 1 ∧
          (runItem (fetch i) r 0 MAX_RETRIES).1.getLast? =
            some (Event.infoTransferred r.source r.destination)) ∨
       ((∀ k, k < MAX_RETRIES → fetch i k ≠ FetchOutcome.ok) ∧
          numAttempts (runItem (fetch i) r 0 MAX_RETRIES).1 = MAX_RETRIES ∧
          Event.infoTransferred r.source r.destination ∉
            (runItem (fetch i) r 0 MAX_RETRIES).1)) := by
  have h := runRows_map_some fetch hni rows 0
  refine ⟨by rw [h], by rw [h]; rfl, ?_⟩
  intro i r _
  exact runItem_classify (fetch i) r (hni i)

/-- A fetch oracle that succeeds immediately on every attempt. -/
def fetchAlwaysOk : Nat → Nat → FetchOutcome := fun _ _ => FetchOutcome.ok

/-- Witness for claim C8 on a concrete two-row manifest. -/
theorem executor_resolutions_in_order_witness :
    (runRows fetchAlwaysOk ([⟨"s1", "d1"⟩, ⟨"s2", "d2"⟩].map some) 0).2 = false :=
  (executor_resolutions_in_order fetchAlwaysOk [⟨"s1", "d1"⟩, ⟨"s2", "d2"⟩]
    (fun _ _ h => FetchOutcome.noConfusion h)).1

/-- A run whose single manifest item fails on every fetch attempt. -/
def envFailingItem : Env where
  keyContent := .validRSA
  probe := .connected
  preferredKeyAlgorithm := none
  connect := .ok
  sftpOpenOk := true
  manifest := .ok [some ⟨"a", "b"⟩]
  fetch := fun _ _ => .err .ioErr

/-- Claim C3 counterexample: in a run whose only item fails all
`MAX_RETRIES` attempts (it is never logged as transferred), the script
still emits the full-success terminal status "SFTP transfer completed
successfully" — the terminal status does not distinguish failure, and no
failure summary naming the failed items exists. -/
theorem terminal_status_cex :
    Event.infoTransferred "a" "b" ∉ (sftp_transfer envFailingItem).1 ∧
    numAttempts (sftp_transfer envFailingItem).1 = MAX_RETRIES ∧
    (sftp_transfer envFailingItem).1.count Event.infoCompleted = 1 ∧
    (sftp_transfer envFailingItem).2 = false := by decide

/-- Claim C3 amended: whenever the manifest is exhausted without an
uncaught exception, the run emits exactly one terminal status — the
completed-successfully message — regardless of whether zero, some, or all
items failed; per-item failures are visible only in the per-attempt error
logs, never in a failure summary. -/
theorem terminal_status_unconditional_success (env : Env) (rows : List (Option Row))
    (hv : validate_private_key env.keyContent = Except.ok true)
    (hr : is_host_reachable env.probe = Except.ok true)
    (hc : env.connect = ConnectResult.ok)
    (hs : env.sftpOpenOk = true)
    (hm : env.manifest = Except.ok rows)
    (hab : (runRows env.fetch rows 0).2 = false) :
    (sftp_transfer env).1.count Event.infoCompleted = 1 ∧
    (sftp_transfer env).2 = false := by
  have hkz := keyAlgoStep_count_eq_zero env.preferredKeyAlgorithm Event.infoCompleted
    (by intro s h; cases h)
  have hrz := runRows_count_eq_zero env.fetch rows 0 Event.infoCompleted rfl
  have hne : Event.infoCompleted ≠ Event.connectAttempt (keyAlgoStep env.preferredKeyAlgorithm).2 :=
    fun h => Event.noConfusion h
  simp only [sftp_transfer, hv, hr, connectPhase, hc, transferPhase, hs, hm, hab,
    if_true, if_false]
  constructor
  · rw [List.count_cons_of_ne (by decide), List.count_cons_of_ne (by decide)]
    simp [List.count_append, List.count_cons, hkz, hrz]
  · rfl

/-- Witness for the amended claim C3: the failing-item run still gets the
success status. -/
theorem terminal_status_unconditional_success_witness :
    (sftp_transfer envFailingItem).1.count Event.infoCompleted = 1 ∧
    (sftp_transfer envFailingItem).2 = false :=
  terminal_status_unconditional_success envFailingItem [some ⟨"a", "b"⟩]
    rfl rfl rfl rfl rfl (by decide)

/-- Claim C5 counterexample: a probe that times out is not mapped to the
"unreachable" verdict; `socket.timeout` is outside the except clause, so
`is_host_reachable` returns no boolean at all and the exception reaches the
caller. -/
theorem reachability_timeout_raises_cex :
    is_host_reachable ProbeOutcome.timedOut = Except.error () ∧
    is_host_reachable ProbeOutcome.timedOut ≠ Except.ok true ∧
    is_host_reachable ProbeOutcome.timedOut ≠ Except.ok false :=
  ⟨rfl, fun h => Except.noConfusion h, fun h => Except.noConfusion h⟩

/-- Claim C5 amended: the reachability check returns a boolean verdict only
for a successful probe (true) and for connection-refused and
name-resolution failures (false); any other probe failure — the 10-second
timeout expiring, or another OS error — raises to the caller. -/
theorem reachability_verdicts :
    is_host_reachable ProbeOutcome.connected = Except.ok true ∧
    is_host_reachable ProbeOutcome.refused = Except.ok false ∧
    is_host_reachable ProbeOutcome.nameResolutionFailure = Except.ok false ∧
    is_host_reachable ProbeOutcome.timedOut = Except.error () ∧
    is_host_reachable ProbeOutcome.otherOSError = Except.error () :=
  ⟨rfl, rfl, rfl, rfl, rfl⟩

/-- Claim C6: the credential validator returns the boolean verdict false
both for a non-existent path and for a file whose content is not a
well-formed key — the caller cannot distinguish the two — and true for a
well-formed key file. -/
theorem credential_validator_verdicts :
    validate_private_key KeyFileContent.missing = Except.ok false ∧
    validate_private_key KeyFileContent.invalidKey = Except.ok false ∧
    validate_private_key KeyFileContent.validRSA = Except.ok true :=
  ⟨rfl, rfl, rfl⟩

/-- A run with an unreachable host (probe refused) and an invalid key. -/
def envUnreachableInvalidKey : Env where
  keyContent := .invalidKey
  probe := .refused
  preferredKeyAlgorithm := none
  connect := .ok
  sftpOpenOk := true
  manifest := .ok []
  fetch := fun _ _ => .ok

/-- Claim C4 counterexample: with an unreachable host the run still
performs credential validation — in fact credential validation runs first
and its verdict is the one reported; the reachability check is never even
reached and the unreachable error is never emitted. -/
theorem preflight_order_cex :
    envUnreachableInvalidKey.probe = ProbeOutcome.refused ∧
    is_host_reachable envUnreachableInvalidKey.probe = Except.ok false ∧
    (sftp_transfer envUnreachableInvalidKey).1 =
      [Event.checkedKey, Event.errInvalidKey] := by
  exact ⟨rfl, rfl, by decide⟩

/-- Claim C4 amended: the preflight checks execute in the order credential
validation first, then the reachability check, then session open; a run
with invalid key material never reaches the reachability check or session
open, and a reachable-host verdict of false blocks session open. -/
theorem preflight_key_check_first (env : Env) :
    (sftp_transfer env).1.take 1 = [Event.checkedKey] ∧
    (validate_private_key env.keyContent = Except.ok false →
      (sftp_transfer env).1 = [Event.checkedKey, Event.errInvalidKey]) ∧
    (validate_private_key env.keyContent = Except.ok true →
      is_host_reachable env.probe = Except.ok false →
      (sftp_transfer env).1 =
        [Event.checkedKey, Event.checkedHost, Event.errUnreachable]) ∧
    (Event.checkedHost ∈ (sftp_transfer env).1 →
      validate_private_key env.keyContent = Except.ok true) ∧
    (∀ k, Event.connectAttempt k ∈ (sftp_transfer env).1 →
      validate_private_key env.keyContent = Except.ok true ∧
      is_host_reachable env.probe = Except.ok true) := by
  cases hv : validate_private_key env.keyContent with
  | error u =>
    refine ⟨by simp [sftp_transfer, hv], ?_, ?_, ?_, ?_⟩
    · intro h; cases h
    · intro h; cases h
    · intro h; simp [sftp_transfer, hv] at h
    · intro k h; simp [sftp_transfer, hv] at h
  | ok b =>
    cases b with
    | false =>
      refine ⟨by simp [sftp_transfer, hv], fun _ => by simp [sftp_transfer, hv], ?_, ?_, ?_⟩
      · intro h; simp at h
      · intro h; simp [sftp_transfer, hv] at h
      · intro k h; simp [sftp_transfer, hv] at h
    | true =>
      cases hr : is_host_reachable env.probe with
      | error u =>
        refine ⟨by simp [sftp_transfer, hv, hr], ?_, ?_, fun _ => rfl, ?_⟩
        · intro h; simp at h
        · intro _ h; cases h
        · intro k h; simp [sftp_transfer, hv, hr] at h
      | ok b2 =>
        cases b2 with
        | false =>
          refine ⟨by simp [sftp_transfer, hv, hr], ?_,
            fun _ _ => by simp [sftp_transfer, hv, hr], fun _ => rfl, ?_⟩
          · intro h; simp at h
          · intro k h; simp [sftp_transfer, hv, hr] at h
        | true =>
          refine ⟨by simp [sftp_transfer, hv, hr], ?_, ?_, fun _ => rfl,
            fun k _ => ⟨rfl, rfl⟩⟩
          · intro h; simp at h
          · intro _ h; simp at h

/-- Witness for the amended claim C4: an invalid key stops the run before
the reachability check. -/
theorem preflight_key_check_first_witness :
    (sftp_transfer envUnreachableInvalidKey).1 =
      [Event.checkedKey, Event.errInvalidKey] :=
  (preflight_key_check_first envUnreachableInvalidKey).2.1 rfl

lemma keyAlgoStep_not_mem (pka : Option String) (e : Event)
    (he : ∀ s, e ≠ Event.infoKeyAlgo s) : e ∉ (keyAlgoStep pka).1 := by
  intro h
  obtain ⟨s, hs⟩ := keyAlgoStep_events pka e h
  exact he s hs

/-- Claim C7: a session-open attempt ends in one of two distinguishable
terminal failure events — the authentication-failure log or the SSH-error
log — and on either one the run returns before the manifest is opened and
before any fetch is attempted. -/
theorem session_open_failure_classes (env : Env)
    (hv : validate_private_key env.keyContent = Except.ok true)
    (hr : is_host_reachable env.probe = Except.ok true) :
    (env.connect = ConnectResult.authFail →
      (sftp_transfer env).1.getLast? = some Event.errAuth ∧
      Event.readManifest ∉ (sftp_transfer env).1 ∧
      (∀ s d n, Event.attemptFetch s d n ∉ (sftp_transfer env).1) ∧
      (sftp_transfer env).2 = false) ∧
    (∀ m, env.connect = ConnectResult.sshErr m →
      (sftp_transfer env).1.getLast? = some (Event.errSSH m) ∧
      Event.readManifest ∉ (sftp_transfer env).1 ∧
      (∀ s d n, Event.attemptFetch s d n ∉ (sftp_transfer env).1) ∧
      (sftp_transfer env).2 = false) ∧
    (∀ m, Event.errAuth ≠ Event.errSSH m) := by
  refine ⟨?_, ?_, fun m h => Event.noConfusion h⟩
  · intro hc
    have heq : (sftp_transfer env).1 =
        (Event.checkedKey :: Event.checkedHost ::
          ((keyAlgoStep env.preferredKeyAlgorithm).1 ++
            [Event.connectAttempt (keyAlgoStep env.preferredKeyAlgorithm).2])) ++
          [Event.errAuth] := by
      simp [sftp_transfer, hv, hr, connectPhase, hc]
    refine ⟨by rw [heq]; exact List.getLast?_concat _, ?_, ?_,
      by simp [sftp_transfer, hv, hr, connectPhase, hc]⟩
    · rw [heq]
      intro h
      simp [List.mem_append, List.mem_cons] at h
      exact keyAlgoStep_not_mem env.preferredKeyAlgorithm Event.readManifest
        (fun s h' => Event.noConfusion h') h
    · intro s d n
      rw [heq]
      intro h
      simp [List.mem_append, List.mem_cons] at h
      exact keyAlgoStep_not_mem env.preferredKeyAlgorithm (Event.attemptFetch s d n)
        (fun s' h' => Event.noConfusion h') h
  · intro m hc
    have heq : (sftp_transfer env).1 =
        (Event.checkedKey :: Event.checkedHost ::
          ((keyAlgoStep env.preferredKeyAlgorithm).1 ++
            [Event.connectAttempt (keyAlgoStep env.preferredKeyAlgorithm).2])) ++
          [Event.errSSH m] := by
      simp [sftp_transfer, hv, hr, connectPhase, hc]
    refine ⟨by rw [heq]; exact List.getLast?_concat _, ?_, ?_,
      by simp [sftp_transfer, hv, hr, connectPhase, hc]⟩
    · rw [heq]
      intro h
      simp [List.mem_append, List.mem_cons] at h
      exact keyAlgoStep_not_mem env.preferredKeyAlgorithm Event.readManifest
        (fun s h' => Event.noConfusion h') h
    · intro s d n
      rw [heq]
      intro h
      simp [List.mem_append, List.mem_cons] at h
      exact keyAlgoStep_not_mem env.preferredKeyAlgorithm (Event.attemptFetch s d n)
        (fun s' h' => Event.noConfusion h') h

/-- A run whose connect attempt fails with an authentication error. -/
def envAuthFail : Env where
  keyContent := .validRSA
  probe := .connected
  preferredKeyAlgorithm := none
  connect := .authFail
  sftpOpenOk := true
  manifest := .ok []
  fetch := fun _ _ => .ok

/-- Witness for claim C7 at a concrete authentication failure. -/
theorem session_open_failure_classes_witness :
    (sftp_transfer envAuthFail).1.getLast? = some Event.errAuth ∧
    (sftp_transfer envAuthFail).2 = false :=
  let h := (session_open_failure_classes envAuthFail rfl rfl).1 rfl
  ⟨h.1, h.2.2.2⟩

/-- Claim C9: when a preferred key algorithm is configured (a non-empty
value), it is logged and stored on the key object before `ssh.connect` is
called with that key; when none is configured (unset or empty), the key
reaches `ssh.connect` unmodified. -/
theorem preferred_key_algorithm_applied_before_connect (env : Env)
    (hv : validate_private_key env.keyContent = Except.ok true)
    (hr : is_host_reachable env.probe = Except.ok true) :
    (∀ s, env.preferredKeyAlgorithm = some s → s.isEmpty = false →
      (sftp_transfer env).1.take 4 =
        [Event.checkedKey, Event.checkedHost, Event.infoKeyAlgo s,
         Event.connectAttempt ⟨some s⟩]) ∧
    (truthy env.preferredKeyAlgorithm = false →
      (sftp_transfer env).1.take 3 =
        [Event.checkedKey, Event.checkedHost, Event.connectAttempt ⟨none⟩]) := by
  constructor
  · intro s hp hs
    cases hc : env.connect <;>
      simp [sftp_transfer, hv, hr, connectPhase, hc, keyAlgoStep, hp, hs]
  · intro ht
    cases hp : env.preferredKeyAlgorithm with
    | none =>
      cases hc : env.connect <;>
        simp [sftp_transfer, hv, hr, connectPhase, hc, keyAlgoStep, hp]
    | some s =>
      rw [hp] at ht
      simp only [truthy, Bool.not_eq_false'] at ht
      cases hc : env.connect <;>
        simp [sftp_transfer, hv, hr, connectPhase, hc, keyAlgoStep, hp, ht]

/-- A run configured with a preferred key algorithm. -/
def envWithAlgo : Env where
  keyContent := .validRSA
  probe := .connected
  preferredKeyAlgorithm := some "ssh-rsa"
  connect := .ok
  sftpOpenOk := true
  manifest := .ok []
  fetch := fun _ _ => .ok

/-- Witness for claim C9 at a concrete configured algorithm. -/
theorem preferred_key_algorithm_applied_before_connect_witness :
    (sftp_transfer envWithAlgo).1.take 4 =
      [Event.checkedKey, Event.checkedHost, Event.infoKeyAlgo "ssh-rsa",
       Event.connectAttempt ⟨some "ssh-rsa"⟩] :=
  (preferred_key_algorithm_applied_before_connect envWithAlgo rfl rfl).1 "ssh-rsa" rfl rfl

/-- Claim C10: with passing preflight checks, a successful session open,
and a manifest with zero data rows, the run makes zero fetch attempts,
emits the completed-successfully terminal status once, and closes the
session exactly once. -/
theorem header_only_manifest_run (env : Env)
    (hv : validate_private_key env.keyContent = Except.ok true)
    (hr : is_host_reachable env.probe = Except.ok true)
    (hc : env.connect = ConnectResult.ok)
    (hs : env.sftpOpenOk = true)
    (hm : env.manifest = Except.ok []) :
    numAttempts (sftp_transfer env).1 = 0 ∧
    (sftp_transfer env).1.count Event.infoCompleted = 1 ∧
    (sftp_transfer env).1.count Event.closeSSH = 1 ∧
    (sftp_transfer env).2 = false := by
  have hka0 : List.countP (fun e => isAttemptEv e) (keyAlgoStep env.preferredKeyAlgorithm).1 = 0 := by
    cases hp : env.preferredKeyAlgorithm with
    | none => rfl
    | some s =>
      by_cases hse : s.isEmpty <;> simp [keyAlgoStep, hse, isAttemptEv]
  have hkc : (keyAlgoStep env.preferredKeyAlgorithm).1.count Event.infoCompleted = 0 :=
    keyAlgoStep_count_eq_zero env.preferredKeyAlgorithm Event.infoCompleted
      (by intro s h; cases h)
  have hkcl : (keyAlgoStep env.preferredKeyAlgorithm).1.count Event.closeSSH = 0 :=
    keyAlgoStep_count_eq_zero env.preferredKeyAlgorithm Event.closeSSH
      (by intro s h; cases h)
  simp only [sftp_transfer, hv, hr, connectPhase, hc, transferPhase, hs, hm, runRows]
  refine ⟨?_, ?_, ?_, rfl⟩
  · simp [numAttempts, List.countP_cons, List.countP_append, hka0, isAttemptEv]
    intro a ha
    obtain ⟨s, hs⟩ := keyAlgoStep_events env.preferredKeyAlgorithm a ha
    subst hs
    rfl
  · rw [List.count_cons_of_ne (by decide), List.count_cons_of_ne (by decide)]
    simp [List.count_append, List.count_cons, hkc]
  · rw [List.count_cons_of_ne (by decide), List.count_cons_of_ne (by decide)]
    simp [List.count_append, List.count_cons, hkcl]

/-- A run with passing preflight checks and a header-only manifest. -/
def envHeaderOnly : Env where
  keyContent := .validRSA
  probe := .connected
  preferredKeyAlgorithm := none
  connect := .ok
  sftpOpenOk := true
  manifest := .ok []
  fetch := fun _ _ => .ok

/-- Witness for claim C10 at a concrete header-only run. -/
theorem header_only_manifest_run_witness :
    numAttempts (sftp_transfer envHeaderOnly).1 = 0 ∧
    (sftp_transfer envHeaderOnly).1.count Event.infoCompleted = 1 ∧
    (sftp_transfer envHeaderOnly).1.count Event.closeSSH = 1 ∧
    (sftp_transfer envHeaderOnly).2 = false :=
  header_only_manifest_run envHeaderOnly rfl rfl rfl rfl rfl

end TinySftp
